import Mathlib

/-!
# Verification of the US energy-programs dashboard (src/app.py)

Shallow embedding of the data pipeline and of the filter/aggregate engine
of `app.py`, together with proofs of the specified properties.

Tables (`pandas.DataFrame`) are modelled as Lists of records; a column that
may hold `NaN` (a failed `.map` lookup) is an `Option`; `Series.isin` on a
list of strings is `false` on a missing value, as in pandas.  `groupby`
(with its default `sort=True, dropna=True`) is modelled by deduplicating
the key column, dropping absent keys, sorting the distinct keys, and
counting occurrences.
-/

/-- A row of the base table `df_us_programs`: the `state_province` column,
the `device_name` column added on line 95 (`None` when the device-category
id is absent from `device_dict`), and the `region` column added on line 96
(`None` when the state code is absent from `state_to_region`). -/
structure Row where
  state_province : String
  device_name : Option String
  region : Option String
deriving DecidableEq, Repr

/-- A raw row of the `programs` table as fetched: the fields the app reads. -/
structure RawProgram where
  state_province : String
  device_category_id : Nat
deriving DecidableEq, Repr

/-- A raw row of the `device_categories` table: the fields the app reads. -/
structure DeviceCat where
  id : Nat
  name : String
deriving DecidableEq, Repr

/-- The static `state_to_region` dictionary (lines 56-76). -/
def state_to_region : List (String × String) :=
  [("AZ", "Southwest"), ("NM", "Southwest"), ("TX", "Southwest"), ("OK", "Southwest"),
   ("CA", "West"), ("OR", "West"), ("WA", "West"), ("NV", "West"), ("ID", "West"),
   ("MT", "West"), ("WY", "West"), ("CO", "West"), ("UT", "West"),
   ("FL", "Southeast"), ("GA", "Southeast"), ("SC", "Southeast"), ("NC", "Southeast"),
   ("VA", "Southeast"), ("AL", "Southeast"), ("MS", "Southeast"), ("TN", "Southeast"),
   ("KY", "Southeast"), ("AR", "Southeast"), ("LA", "Southeast"),
   ("IL", "Midwest"), ("IN", "Midwest"), ("MI", "Midwest"), ("OH", "Midwest"),
   ("WI", "Midwest"), ("MN", "Midwest"), ("IA", "Midwest"), ("MO", "Midwest"),
   ("ND", "Midwest"), ("SD", "Midwest"), ("NE", "Midwest"), ("KS", "Midwest"),
   ("NY", "Mid-Atlantic"), ("NJ", "Mid-Atlantic"), ("PA", "Mid-Atlantic"),
   ("DE", "Mid-Atlantic"), ("MD", "Mid-Atlantic"), ("WV", "Mid-Atlantic"),
   ("ME", "Northeast"), ("NH", "Northeast"), ("VT", "Northeast"), ("MA", "Northeast"),
   ("RI", "Northeast"), ("CT", "Northeast")]

/-- `load_data` (lines 28-48), as a function of the outcomes of the two
Supabase fetches.  A raised exception anywhere in the `try` block, and a
zero-row `programs` response (line 40-41), fall into the `except` branch
returning `(pd.DataFrame(), {})`.  A zero-row `device_categories` response
also lands there, because indexing the column `id` of an empty frame
(line 34) raises `KeyError`. -/
def load_data (devFetch : Except String (List DeviceCat))
    (progFetch : Except String (List RawProgram)) :
    List RawProgram × List (Nat × String) :=
  match devFetch with
  | .error _ => ([], [])
  | .ok dcs =>
    if dcs.isEmpty then ([], [])
    else
      match progFetch with
      | .error _ => ([], [])
      | .ok ps =>
        if ps.isEmpty then ([], [])
        else (ps, dcs.map (fun c => (c.id, c.name)))

/-- Lines 94-96: one row of `df_us_programs` built from a program row,
with the `device_name` and `region` columns attached by `.map` lookups. -/
def mkRow (dict : List (Nat × String)) (p : RawProgram) : Row :=
  { state_province := p.state_province
    device_name := dict.lookup p.device_category_id
    region := state_to_region.lookup p.state_province }

/-- Lines 88-96: `df_us_programs` stays the empty frame unless both
`df_programs` and `device_dict` are non-empty (line 92); otherwise it is
the programs whose `state_province` has length exactly 2, with device
names and regions attached. -/
def buildBaseTable (ps : List RawProgram) (dict : List (Nat × String)) : List Row :=
  if ps.isEmpty || dict.isEmpty then []
  else (ps.filter (fun p => p.state_province.length == 2)).map (mkRow dict)

/-- `Series.isin(values)` on a column of optional strings: a present value
tests membership, a missing value (`NaN`) is never in a list of strings. -/
def isinOpt (v : Option String) (values : List String) : Bool :=
  match v with
  | some s => values.contains s
  | none => false

/-- Lines 243-246: keep rows whose `device_name` is in `selected_devices`;
an empty (falsy) selection empties the frame (`iloc[0:0]`). -/
def filterDevices (t : List Row) (devs : List String) : List Row :=
  if devs.isEmpty then []
  else t.filter (fun r => isinOpt r.device_name devs)

/-- Lines 248-251: keep rows whose `region` is in `selected_regions`;
an empty (falsy) selection empties the frame (`iloc[0:0]`). -/
def filterRegions (t : List Row) (regs : List String) : List Row :=
  if regs.isEmpty then []
  else t.filter (fun r => isinOpt r.region regs)

/-- Lines 240-251: the working set `filtered_df` after both filters. -/
def filteredRows (t : List Row) (devs regs : List String) : List Row :=
  filterRegions (filterDevices t devs) regs

/-- Strict lexicographic comparison of character lists by Unicode code
point — the order Python (and hence pandas `groupby(sort=True)` /
`sorted(...)`) compares strings in. -/
def charListLt : List Char → List Char → Bool
  | _, [] => false
  | [], _ :: _ => true
  | a :: as, b :: bs =>
    if a.val.toNat < b.val.toNat then true
    else if a = b then charListLt as bs
    else false

/-- Strict code-point lexicographic order on strings. -/
def strLtB (a b : String) : Bool :=
  charListLt a.data b.data

/-- Non-strict code-point lexicographic order on strings. -/
def strLe (a b : String) : Prop :=
  strLtB a b = true ∨ a = b

instance : DecidableRel strLe := fun a b => by
  unfold strLe; infer_instance

theorem charListLt_irrefl : ∀ l, charListLt l l = false
  | [] => rfl
  | a :: as => by
    simp only [charListLt, lt_irrefl, if_false, if_pos rfl]
    exact charListLt_irrefl as

theorem charListLt_nil_right : ∀ l, charListLt l [] = false
  | [] => rfl
  | _ :: _ => rfl

theorem charListLt_trans : ∀ {a b c : List Char},
    charListLt a b = true → charListLt b c = true → charListLt a c = true
  | _, b, [], _, h => by rw [charListLt_nil_right b] at h; cases h
  | [], _ :: _, _ :: _, _, _ => rfl
  | _ :: _, [], _, h, _ => by cases h
  | a :: as, b :: bs, c :: cs, hab, hbc => by
    simp only [charListLt] at hab hbc ⊢
    by_cases h1 : a.val.toNat < b.val.toNat
    · by_cases h2 : b.val.toNat < c.val.toNat
      · rw [if_pos (h1.trans h2)]
      · rw [if_pos h1] at hab
        rw [if_neg h2] at hbc
        by_cases he2 : b = c
        · subst he2; rw [if_pos h1]
        · rw [if_neg he2] at hbc; cases hbc
    · rw [if_neg h1] at hab
      by_cases he1 : a = b
      · subst he1
        rw [if_pos rfl] at hab
        by_cases h2 : a.val.toNat < c.val.toNat
        · rw [if_pos h2]
        · rw [if_neg h2] at hbc ⊢
          by_cases he2 : a = c
          · subst he2; rw [if_pos rfl] at hbc ⊢
            exact charListLt_trans hab hbc
          · rw [if_neg he2] at hbc; cases hbc
      · rw [if_neg he1] at hab; cases hab

theorem charListLt_trichotomy : ∀ a b : List Char,
    charListLt a b = true ∨ a = b ∨ charListLt b a = true
  | [], [] => Or.inr (Or.inl rfl)
  | [], _ :: _ => Or.inl rfl
  | _ :: _, [] => Or.inr (Or.inr rfl)
  | a :: as, b :: bs => by
    simp only [charListLt]
    by_cases h1 : a.val.toNat < b.val.toNat
    · exact Or.inl (by rw [if_pos h1])
    · by_cases he : a = b
      · subst he
        rcases charListLt_trichotomy as bs with h | h | h
        · exact Or.inl (by rw [if_neg h1, if_pos rfl]; exact h)
        · exact Or.inr (Or.inl (by rw [h]))
        · exact Or.inr (Or.inr (by rw [if_neg h1, if_pos rfl]; exact h))
      · have h2 : b.val.toNat < a.val.toNat := by
          rcases Nat.lt_trichotomy a.val.toNat b.val.toNat with h | h | h
          · exact absurd h h1
          · exact absurd (Char.eq_of_val_eq (UInt32.ext h)) he
          · exact h
        exact Or.inr (Or.inr (by rw [if_pos h2]))

theorem strLtB_irrefl (a : String) : strLtB a a = false :=
  charListLt_irrefl a.data

theorem strLtB_trans {a b c : String} (h1 : strLtB a b = true)
    (h2 : strLtB b c = true) : strLtB a c = true :=
  charListLt_trans h1 h2

theorem strLtB_trichotomy (a b : String) :
    strLtB a b = true ∨ a = b ∨ strLtB b a = true := by
  rcases charListLt_trichotomy a.data b.data with h | h | h
  · exact Or.inl h
  · refine Or.inr (Or.inl ?_)
    cases a; cases b
    exact congrArg String.mk h
  · exact Or.inr (Or.inr h)

instance : IsTotal String strLe := by
  constructor
  intro a b
  rcases strLtB_trichotomy a b with h | h | h
  · exact Or.inl (Or.inl h)
  · exact Or.inl (Or.inr h)
  · exact Or.inr (Or.inl h)

instance : IsTrans String strLe := by
  constructor
  intro a b c hab hbc
  rcases hab with h | h
  · rcases hbc with h' | h'
    · exact Or.inl (strLtB_trans h h')
    · exact Or.inl (h' ▸ h)
  · exact h ▸ hbc

/-- `groupby(key).size()` over a string key column: pandas sorts the
distinct keys (default `sort=True`) and reports each key's row count. -/
def groupCounts (keys : List String) : List (String × Nat) :=
  (List.insertionSort strLe keys.dedup).map (fun k => (k, keys.count k))

/-- Lexicographic comparison of a two-column group key, the order pandas
sorts `groupby(['region', 'device_name'])` keys in. -/
def pairLe (a b : String × String) : Prop :=
  strLtB a.1 b.1 = true ∨ (a.1 = b.1 ∧ strLe a.2 b.2)

instance : DecidableRel pairLe := fun a b => by
  unfold pairLe; infer_instance

instance : IsTotal (String × String) pairLe := by
  constructor
  intro a b
  rcases strLtB_trichotomy a.1 b.1 with h | h | h
  · exact Or.inl (Or.inl h)
  · rcases IsTotal.total (r := strLe) a.2 b.2 with h2 | h2
    · exact Or.inl (Or.inr ⟨h, h2⟩)
    · exact Or.inr (Or.inr ⟨h.symm, h2⟩)
  · exact Or.inr (Or.inl h)

instance : IsTrans (String × String) pairLe := by
  constructor
  intro a b c hab hbc
  rcases hab with h | ⟨he, h2⟩
  · rcases hbc with h' | ⟨he', _⟩
    · exact Or.inl (strLtB_trans h h')
    · exact Or.inl (he' ▸ h)
  · rcases hbc with h' | ⟨he', h2'⟩
    · exact Or.inl (he ▸ h')
    · exact Or.inr ⟨he.trans he', Trans.trans h2 h2'⟩

/-- `groupby([k₁, k₂]).size()` over a pair of string key columns. -/
def groupCountsPair (keys : List (String × String)) : List ((String × String) × Nat) :=
  (List.insertionSort pairLe keys.dedup).map (fun k => (k, keys.count k))

/-- Line 255: `state_totals` — per-state row counts of the working set
(the `state_province` column is never missing). -/
def state_totals (f : List Row) : List (String × Nat) :=
  groupCounts (f.map Row.state_province)

/-- Line 259: `region_totals` — per-region row counts; pandas `groupby`
drops rows whose key is `NaN`, hence the `filterMap`. -/
def region_totals (f : List Row) : List (String × Nat) :=
  groupCounts (f.filterMap Row.region)

/-- Line 260: `region_device_counts` — per-(region, device) row counts;
rows with either key missing are dropped by `groupby`. -/
def region_device_counts (f : List Row) : List ((String × String) × Nat) :=
  groupCountsPair (f.filterMap (fun r =>
    match r.region, r.device_name with
    | some g, some d => some (g, d)
    | _, _ => none))

/-- Lines 267 and 257: the hover branch condition
`if region and region in selected_regions`, where `region` is the
re-computed `state_to_region` lookup of the state code; a missing
(`NaN`) region fails the membership test. -/
def regionBranch (regs : List String) (s : String) : Bool :=
  match state_to_region.lookup s with
  | some g => regs.contains g
  | none => false

/-- Lines 268-269: the guarded extraction of a region's total
(`values[0] if len(region_total) > 0 else 0`). -/
def regionTotalLookup (rt : List (String × Nat)) (g : String) : Nat :=
  match ((rt.filter (fun e => e.1 == g)).map Prod.snd) with
  | [] => 0
  | v :: _ => v

/-- Lines 271 and 277-278: the rows of `region_device_counts` for one
region, reduced to (device name, count) pairs in the order they are
iterated when building hover text. -/
def deviceBreakdownFor (f : List Row) (g : String) : List (String × Nat) :=
  ((region_device_counts f).filter (fun e => e.1.1 == g)).map (fun e => (e.1.2, e.2))

/-- Lines 273-278: the hover text of a state whose region is selected. -/
def mkRegionHover (g : String) (tot : Nat) (bd : List (String × Nat)) : String :=
  "<b>" ++ g ++ " Region</b><br>" ++ "Total Programs: " ++ toString tot ++
    "<br><br>" ++ "<b>By Device Type:</b><br>" ++
    String.join (bd.map (fun e => e.1 ++ ": " ++ toString e.2 ++ "<br>"))

/-- Line 282: the defensive hover text. -/
def noDataHover (s : String) : String :=
  "<b>" ++ s ++ "</b><br>No data for selected filters"

/-- Lines 263-282: the hover text built for one state of `state_totals`. -/
def hoverTextFor (f : List Row) (regs : List String) (s : String) : String :=
  match state_to_region.lookup s with
  | some g =>
    if regs.contains g then
      mkRegionHover g (regionTotalLookup (region_totals f) g) (deviceBreakdownFor f g)
    else noDataHover s
  | none => noDataHover s

/-- The result of one `update_map` invocation, restricted to its data
content: the distinguished no-data answer (lines 228-238), the
empty-after-filtering answer (lines 327-341), or the computed statistics
(per-state counts, per-region totals, per-(region, device) counts, hover
texts, and the grand total of line 312). -/
inductive AggregateResult where
  | noData
  | emptyAfterFilter
  | stats (stateCounts : List (String × Nat)) (regionTotals : List (String × Nat))
      (regionDeviceCounts : List ((String × String) × Nat))
      (hoverTexts : List String) (total : Nat)
deriving DecidableEq, Repr

/-- `update_map` (lines 226-351) as the aggregate function
`aggregate(table, selectedDevices, selectedRegions)`. -/
def aggregate (t : List Row) (devs regs : List String) : AggregateResult :=
  if t.isEmpty then .noData
  else if (filteredRows t devs regs).length > 0 then
    .stats (state_totals (filteredRows t devs regs))
      (region_totals (filteredRows t devs regs))
      (region_device_counts (filteredRows t devs regs))
      ((state_totals (filteredRows t devs regs)).map
        (fun e => hoverTextFor (filteredRows t devs regs) regs e.1))
      (filteredRows t devs regs).length
  else .emptyAfterFilter

/-- The grand total carried by an aggregate result. -/
def AggregateResult.total : AggregateResult → Nat
  | .stats _ _ _ _ n => n
  | _ => 0

/-- The per-state counts carried by an aggregate result. -/
def AggregateResult.stateCounts : AggregateResult → List (String × Nat)
  | .stats sc _ _ _ _ => sc
  | _ => []

/-- Lines 98-100: the device filter options — the sorted distinct present
(`dropna()`) device names of the base table. -/
def deviceOptions (t : List Row) : List String :=
  List.insertionSort strLe (t.filterMap Row.device_name).dedup

/-- Lines 268-269 with the one fallible dataframe access made explicit:
`region_total[0]` is a partial indexing, guarded by the length test. -/
def regionTotalLookupChecked (rt : List (String × Nat)) (g : String) : Option Nat :=
  if ((rt.filter (fun e => e.1 == g)).map Prod.snd).length > 0 then
    ((rt.filter (fun e => e.1 == g)).map Prod.snd).get? 0
  else some 0

/-- Lines 263-282 with the fallible access made explicit. -/
def hoverTextForChecked (f : List Row) (regs : List String) (s : String) :
    Option String :=
  match state_to_region.lookup s with
  | some g =>
    if regs.contains g then
      (regionTotalLookupChecked (region_totals f) g).map
        (fun n => mkRegionHover g n (deviceBreakdownFor f g))
    else some (noDataHover s)
  | none => some (noDataHover s)

/-- Sequencing of fallible per-row computations: `none` as soon as one
entry fails. -/
def optionList {α : Type} : List (Option α) → Option (List α)
  | [] => some []
  | none :: _ => none
  | some a :: rest =>
    match optionList rest with
    | some l => some (a :: l)
    | none => none

/-- `update_map` with its one guarded partial dataframe access returned as
an `Option`: the checked run answers `none` exactly when an access would
raise at runtime. -/
def aggregateChecked (t : List Row) (devs regs : List String) :
    Option AggregateResult :=
  if t.isEmpty then some .noData
  else if (filteredRows t devs regs).length > 0 then
    (optionList ((state_totals (filteredRows t devs regs)).map
        (fun e => hoverTextForChecked (filteredRows t devs regs) regs e.1))).map
      (fun hs =>
        .stats (state_totals (filteredRows t devs regs))
          (region_totals (filteredRows t devs regs))
          (region_device_counts (filteredRows t devs regs))
          hs (filteredRows t devs regs).length)
  else some .emptyAfterFilter

/-- The device names of one region's rows of a working set, in
first-encounter order — the order the specification asserts for the hover
breakdown. -/
def encounterDevicesFor (f : List Row) (g : String) : List String :=
  (f.filterMap (fun r =>
    match r.region, r.device_name with
    | some g', some d => if g' == g then some d else none
    | _, _ => none)).dedup

/-! ## Basic lemmas about the filters and groupings -/

theorem filterDevices_nil (devs : List String) : filterDevices [] devs = [] := by
  unfold filterDevices
  split <;> rfl

theorem filterRegions_nil (regs : List String) : filterRegions [] regs = [] := by
  unfold filterRegions
  split <;> rfl

theorem filteredRows_nil (devs regs : List String) :
    filteredRows [] devs regs = [] := by
  rw [filteredRows, filterDevices_nil, filterRegions_nil]

theorem filteredRows_of_empty_sel (t : List Row) (devs regs : List String)
    (h : devs = [] ∨ regs = []) : filteredRows t devs regs = [] := by
  rcases h with h | h <;> subst h
  · exact filterRegions_nil regs
  · rfl

theorem isinOpt_eq_true {v : Option String} {l : List String}
    (h : isinOpt v l = true) : ∃ s, v = some s ∧ s ∈ l := by
  cases v with
  | none => cases h
  | some s => exact ⟨s, rfl, by simpa [isinOpt] using h⟩

theorem isinOpt_mono {v : Option String} {l l' : List String} (hs : l' ⊆ l)
    (h : isinOpt v l' = true) : isinOpt v l = true := by
  rcases isinOpt_eq_true h with ⟨s, rfl, hm⟩
  simpa [isinOpt] using hs hm

theorem mem_filterDevices {t : List Row} {devs : List String} {r : Row}
    (h : r ∈ filterDevices t devs) :
    r ∈ t ∧ isinOpt r.device_name devs = true := by
  unfold filterDevices at h
  split at h
  · cases h
  · exact List.mem_filter.mp h

theorem mem_filterRegions {t : List Row} {regs : List String} {r : Row}
    (h : r ∈ filterRegions t regs) :
    r ∈ t ∧ isinOpt r.region regs = true := by
  unfold filterRegions at h
  split at h
  · cases h
  · exact List.mem_filter.mp h

theorem mem_filteredRows {t : List Row} {devs regs : List String} {r : Row}
    (h : r ∈ filteredRows t devs regs) :
    r ∈ t ∧ isinOpt r.device_name devs = true ∧ isinOpt r.region regs = true := by
  obtain ⟨h1, h2⟩ := mem_filterRegions h
  obtain ⟨h3, h4⟩ := mem_filterDevices h1
  exact ⟨h3, h4, h2⟩

theorem filterDevices_sublist_of_subset (t : List Row) {devs devs' : List String}
    (hs : devs' ⊆ devs) :
    List.Sublist (filterDevices t devs') (filterDevices t devs) := by
  unfold filterDevices
  by_cases h' : devs'.isEmpty
  · rw [if_pos h']
    exact List.nil_sublist _
  · have hd : ¬ devs.isEmpty := by
      intro hd
      rcases List.exists_mem_of_ne_nil devs' (by simpa [List.isEmpty_iff] using h')
        with ⟨x, hx⟩
      have : x ∈ devs := hs hx
      rw [List.isEmpty_iff.mp hd] at this
      cases this
    rw [if_neg h', if_neg hd]
    exact List.monotone_filter_right t (fun r hr => isinOpt_mono hs hr)

theorem filterRegions_sublist {t t' : List Row} (regs : List String)
    (hs : List.Sublist t' t) :
    List.Sublist (filterRegions t' regs) (filterRegions t regs) := by
  unfold filterRegions
  by_cases h : regs.isEmpty
  · rw [if_pos h]
    exact List.nil_sublist _
  · rw [if_neg h, if_neg h]
    exact hs.filter _

theorem filterRegions_sublist_of_subset (t : List Row) {regs regs' : List String}
    (hs : regs' ⊆ regs) :
    List.Sublist (filterRegions t regs') (filterRegions t regs) := by
  unfold filterRegions
  by_cases h' : regs'.isEmpty
  · rw [if_pos h']
    exact List.nil_sublist _
  · have hd : ¬ regs.isEmpty := by
      intro hd
      rcases List.exists_mem_of_ne_nil regs' (by simpa [List.isEmpty_iff] using h')
        with ⟨x, hx⟩
      have : x ∈ regs := hs hx
      rw [List.isEmpty_iff.mp hd] at this
      cases this
    rw [if_neg h', if_neg hd]
    exact List.monotone_filter_right t (fun r hr => isinOpt_mono hs hr)

theorem filteredRows_sublist_devs (t : List Row) {devs devs' : List String}
    (regs : List String) (hs : devs' ⊆ devs) :
    List.Sublist (filteredRows t devs' regs) (filteredRows t devs regs) :=
  filterRegions_sublist regs (filterDevices_sublist_of_subset t hs)

theorem filteredRows_sublist_regs (t : List Row) (devs : List String)
    {regs regs' : List String} (hs : regs' ⊆ regs) :
    List.Sublist (filteredRows t devs regs') (filteredRows t devs regs) :=
  filterRegions_sublist_of_subset (filterDevices t devs) hs

theorem aggregate_total (t : List Row) (devs regs : List String) :
    (aggregate t devs regs).total = (filteredRows t devs regs).length := by
  unfold aggregate
  by_cases ht : t.isEmpty
  · rw [if_pos ht, List.isEmpty_iff.mp ht, filteredRows_nil]
    rfl
  · rw [if_neg ht]
    by_cases hf : (filteredRows t devs regs).length > 0
    · rw [if_pos hf]
      rfl
    · rw [if_neg hf]
      show 0 = (filteredRows t devs regs).length
      omega

theorem sum_groupCounts (keys : List String) :
    ((groupCounts keys).map Prod.snd).sum = keys.length := by
  unfold groupCounts
  have h1 : ((List.insertionSort strLe keys.dedup).map
      (fun k => (k, keys.count k))).Perm (keys.dedup.map (fun k => (k, keys.count k))) :=
    (List.perm_insertionSort strLe keys.dedup).map _
  have h2 := (h1.map Prod.snd).sum_eq
  rw [List.map_map, List.map_map] at h2
  rw [List.map_map, h2]
  exact List.sum_map_count_dedup_eq_length keys

theorem fst_mem_of_mem_groupCounts {keys : List String} {e : String × Nat}
    (h : e ∈ groupCounts keys) : e.1 ∈ keys := by
  unfold groupCounts at h
  rcases List.mem_map.mp h with ⟨k, hk, rfl⟩
  exact List.mem_dedup.mp ((List.perm_insertionSort strLe keys.dedup).mem_iff.mp hk)

theorem mem_buildBaseTable {ps : List RawProgram} {dict : List (Nat × String)}
    {r : Row} (h : r ∈ buildBaseTable ps dict) :
    ∃ p ∈ ps, p.state_province.length = 2 ∧ r = mkRow dict p := by
  unfold buildBaseTable at h
  split at h
  · cases h
  · rcases List.mem_map.mp h with ⟨p, hp, rfl⟩
    have hm := List.mem_filter.mp hp
    exact ⟨p, hm.1, by simpa using hm.2, rfl⟩

theorem mkRow_mem_buildBaseTable {ps : List RawProgram}
    {dict : List (Nat × String)} {p : RawProgram} (hmem : p ∈ ps)
    (hlen : p.state_province.length = 2) (hdict : dict ≠ []) :
    mkRow dict p ∈ buildBaseTable ps dict := by
  unfold buildBaseTable
  rw [if_neg (by simp [List.isEmpty_iff, List.ne_nil_of_mem hmem, hdict])]
  exact List.mem_map.mpr ⟨p, List.mem_filter.mpr ⟨hmem, by simpa using hlen⟩, rfl⟩

theorem mem_deviceOptions {t : List Row} {d : String}
    (h : d ∈ deviceOptions t) : ∃ r ∈ t, r.device_name = some d := by
  unfold deviceOptions at h
  have h1 : d ∈ (t.filterMap Row.device_name).dedup :=
    (List.perm_insertionSort strLe _).mem_iff.mp h
  exact List.mem_filterMap.mp (List.mem_dedup.mp h1)

/-! ## The claims -/

/-- C1: for every base table and every pair of selections, if the
selected-devices set is empty or the selected-regions set is empty, the
aggregate result is the empty aggregate — zero rows in the working set and
total 0 — regardless of the table's contents. -/
theorem claim_C1 (t : List Row) (devs regs : List String)
    (h : devs = [] ∨ regs = []) :
    filteredRows t devs regs = [] ∧ (aggregate t devs regs).total = 0 := by
  have hf := filteredRows_of_empty_sel t devs regs h
  exact ⟨hf, by rw [aggregate_total, hf]; rfl⟩

theorem claim_C1_witness :
    filteredRows [⟨"CA", some "Solar", some "West"⟩] [] ["West"] = [] ∧
      (aggregate [⟨"CA", some "Solar", some "West"⟩] [] ["West"]).total = 0 :=
  claim_C1 [⟨"CA", some "Solar", some "West"⟩] [] ["West"] (Or.inl rfl)

/-- C2: for every pair of selections, if the base table is empty then the
aggregate is the distinguished no-data variant, never the distinct
empty-after-filtering variant. -/
theorem claim_C2 (t : List Row) (devs regs : List String) (h : t = []) :
    aggregate t devs regs = .noData ∧
      aggregate t devs regs ≠ .emptyAfterFilter := by
  subst h
  refine ⟨rfl, ?_⟩
  intro hc
  rw [show aggregate [] devs regs = .noData from rfl] at hc
  cases hc

theorem claim_C2_witness :
    aggregate [] ["Solar"] ["West"] = .noData ∧
      aggregate [] ["Solar"] ["West"] ≠ .emptyAfterFilter :=
  claim_C2 [] ["Solar"] ["West"] rfl

/-- C3: for every base table and non-empty selections of devices and of
regions, the sum of the per-state counts of the aggregate result equals
its total row count. -/
theorem claim_C3 (t : List Row) (devs regs : List String)
    (hd : devs ≠ []) (hr : regs ≠ []) :
    ((aggregate t devs regs).stateCounts.map Prod.snd).sum =
      (aggregate t devs regs).total := by
  unfold aggregate
  by_cases ht : t.isEmpty
  · rw [if_pos ht]
    rfl
  · rw [if_neg ht]
    by_cases hf : (filteredRows t devs regs).length > 0
    · rw [if_pos hf]
      show ((state_totals (filteredRows t devs regs)).map Prod.snd).sum =
        (filteredRows t devs regs).length
      rw [state_totals, sum_groupCounts, List.length_map]
    · rw [if_neg hf]
      rfl

theorem claim_C3_witness :
    ((aggregate
        [⟨"CA", some "Solar", some "West"⟩, ⟨"TX", some "Solar", some "Southwest"⟩]
        ["Solar"] ["West"]).stateCounts.map Prod.snd).sum =
      (aggregate
        [⟨"CA", some "Solar", some "West"⟩, ⟨"TX", some "Solar", some "Southwest"⟩]
        ["Solar"] ["West"]).total :=
  claim_C3 _ _ _ (by decide) (by decide)

/-- C4: removing one element from the selected-devices set (or from the
selected-regions set), all else fixed, never increases the total row count
of the aggregate result. -/
theorem claim_C4 (t : List Row) (devs regs : List String) (d g : String) :
    (aggregate t (devs.erase d) regs).total ≤ (aggregate t devs regs).total ∧
      (aggregate t devs (regs.erase g)).total ≤ (aggregate t devs regs).total := by
  rw [aggregate_total, aggregate_total, aggregate_total]
  constructor
  · exact (filteredRows_sublist_devs t regs (List.erase_subset d devs)).length_le
  · exact (filteredRows_sublist_regs t devs (List.erase_subset g regs)).length_le

/-- C7: if either Supabase fetch raises, or the programs fetch yields zero
rows, `load_data` returns an empty table together with an empty
device-name mapping, propagating no exception. -/
theorem claim_C7 (devFetch : Except String (List DeviceCat))
    (progFetch : Except String (List RawProgram))
    (h : (∃ e, devFetch = .error e) ∨ (∃ e, progFetch = .error e) ∨
      progFetch = .ok []) :
    load_data devFetch progFetch = ([], []) := by
  rcases h with ⟨e, rfl⟩ | ⟨e, rfl⟩ | rfl
  · rfl
  · cases devFetch with
    | error _ => rfl
    | ok dcs => simp [load_data]
  · cases devFetch with
    | error _ => rfl
    | ok dcs => simp [load_data]

theorem claim_C7_witness :
    load_data (.ok [⟨1, "Solar"⟩]) (.error "connection refused") = ([], []) :=
  claim_C7 (.ok [⟨1, "Solar"⟩]) (.error "connection refused")
    (Or.inr (Or.inl ⟨"connection refused", rfl⟩))

/-- C6: for every working set produced by the pipeline's device-and-region
filtering, every state appearing in the per-state counts has a mapped
region that is in the selected-regions set, so the defensive
"no data for selected filters" hover branch is never taken for it. -/
theorem claim_C6 (ps : List RawProgram) (dict : List (Nat × String))
    (devs regs : List String) (s : String) (c : Nat)
    (h : (s, c) ∈ state_totals (filteredRows (buildBaseTable ps dict) devs regs)) :
    regionBranch regs s = true := by
  have hs : s ∈ (filteredRows (buildBaseTable ps dict) devs regs).map
      Row.state_province := fst_mem_of_mem_groupCounts h
  rcases List.mem_map.mp hs with ⟨r, hr, hrs⟩
  obtain ⟨hmem, _, hreg⟩ := mem_filteredRows hr
  rcases isinOpt_eq_true hreg with ⟨g, hg, hgm⟩
  rcases mem_buildBaseTable hmem with ⟨p, _, _, rfl⟩
  have hlook : state_to_region.lookup s = some g := by
    rw [← hrs]
    exact hg
  unfold regionBranch
  rw [hlook]
  simpa using hgm

theorem claim_C6_witness :
    (("CA", 1) ∈ state_totals (filteredRows
        (buildBaseTable [⟨"CA", 1⟩] [(1, "Solar")]) ["Solar"] ["West"])) ∧
      regionBranch ["West"] "CA" = true :=
  ⟨by decide, claim_C6 [⟨"CA", 1⟩] [(1, "Solar")] ["Solar"] ["West"] "CA" 1 (by decide)⟩

/-- C9: a program row whose location code does not have length 2 is
excluded from the base table; one whose code has length 2 but is absent
from the state-to-region map is retained in the base table with no region,
and for every pair of selections it never enters the working set from
which the region-scoped aggregates are computed. -/
theorem claim_C9 (ps : List RawProgram) (dict : List (Nat × String))
    (p : RawProgram) (hmem : p ∈ ps) (hlen : p.state_province.length = 2)
    (hreg : state_to_region.lookup p.state_province = none) (hdict : dict ≠ []) :
    (∀ r ∈ buildBaseTable ps dict, r.state_province.length = 2) ∧
      mkRow dict p ∈ buildBaseTable ps dict ∧
      (mkRow dict p).region = none ∧
      ∀ devs regs, mkRow dict p ∉ filteredRows (buildBaseTable ps dict) devs regs := by
  refine ⟨?_, mkRow_mem_buildBaseTable hmem hlen hdict, hreg, ?_⟩
  · intro r hr
    rcases mem_buildBaseTable hr with ⟨q, _, hq, rfl⟩
    exact hq
  · intro devs regs hin
    obtain ⟨_, _, hro⟩ := mem_filteredRows hin
    rcases isinOpt_eq_true hro with ⟨g, hgeq, _⟩
    rw [show (mkRow dict p).region = state_to_region.lookup p.state_province
      from rfl, hreg] at hgeq
    cases hgeq

theorem claim_C9_witness :
    mkRow [(1, "Solar")] ⟨"DC", 1⟩ ∈ buildBaseTable [⟨"DC", 1⟩] [(1, "Solar")] ∧
      (mkRow [(1, "Solar")] ⟨"DC", 1⟩).region = none ∧
      mkRow [(1, "Solar")] ⟨"DC", 1⟩ ∉
        filteredRows (buildBaseTable [⟨"DC", 1⟩] [(1, "Solar")]) ["Solar"] ["West"] :=
  ⟨(claim_C9 [⟨"DC", 1⟩] [(1, "Solar")] ⟨"DC", 1⟩ (by decide) (by decide)
      (by decide) (by decide)).2.1,
   (claim_C9 [⟨"DC", 1⟩] [(1, "Solar")] ⟨"DC", 1⟩ (by decide) (by decide)
      (by decide) (by decide)).2.2.1,
   (claim_C9 [⟨"DC", 1⟩] [(1, "Solar")] ⟨"DC", 1⟩ (by decide) (by decide)
      (by decide) (by decide)).2.2.2 ["Solar"] ["West"]⟩

/-- C10: a base-table row whose device-category id is absent from the
device-name mapping has an absent device name; for every selection the
device filter drops it, so it never reaches the working set; and the
filter options list only device names present in the base table, so even
selecting all offered options cannot include it. -/
theorem claim_C10 (ps : List RawProgram) (dict : List (Nat × String))
    (p : RawProgram) (hmem : p ∈ ps) (hlen : p.state_province.length = 2)
    (hdev : dict.lookup p.device_category_id = none) (hdict : dict ≠ []) :
    (mkRow dict p).device_name = none ∧
      mkRow dict p ∈ buildBaseTable ps dict ∧
      (∀ devs, mkRow dict p ∉ filterDevices (buildBaseTable ps dict) devs) ∧
      (∀ devs regs, mkRow dict p ∉ filteredRows (buildBaseTable ps dict) devs regs) ∧
      ∀ d ∈ deviceOptions (buildBaseTable ps dict),
        ∃ r ∈ buildBaseTable ps dict, r.device_name = some d := by
  have hnone : (mkRow dict p).device_name = none := hdev
  refine ⟨hnone, mkRow_mem_buildBaseTable hmem hlen hdict, ?_, ?_, ?_⟩
  · intro devs hin
    obtain ⟨_, hdv⟩ := mem_filterDevices hin
    rcases isinOpt_eq_true hdv with ⟨d, hdeq, _⟩
    rw [hnone] at hdeq
    cases hdeq
  · intro devs regs hin
    obtain ⟨_, hdv, _⟩ := mem_filteredRows hin
    rcases isinOpt_eq_true hdv with ⟨d, hdeq, _⟩
    rw [hnone] at hdeq
    cases hdeq
  · intro d hd
    exact mem_deviceOptions hd

theorem claim_C10_witness :
    (mkRow [(1, "Solar")] ⟨"CA", 2⟩).device_name = none ∧
      mkRow [(1, "Solar")] ⟨"CA", 2⟩ ∉
        filterDevices (buildBaseTable [⟨"CA", 2⟩, ⟨"NV", 1⟩] [(1, "Solar")])
          (deviceOptions (buildBaseTable [⟨"CA", 2⟩, ⟨"NV", 1⟩] [(1, "Solar")])) :=
  ⟨(claim_C10 [⟨"CA", 2⟩, ⟨"NV", 1⟩] [(1, "Solar")] ⟨"CA", 2⟩ (by decide)
      (by decide) (by decide) (by decide)).1,
   (claim_C10 [⟨"CA", 2⟩, ⟨"NV", 1⟩] [(1, "Solar")] ⟨"CA", 2⟩ (by decide)
      (by decide) (by decide) (by decide)).2.2.1
     (deviceOptions (buildBaseTable [⟨"CA", 2⟩, ⟨"NV", 1⟩] [(1, "Solar")]))⟩

theorem optionList_map_eq {α β : Type} {l : List α} {f : α → Option β}
    {g : α → β} (h : ∀ a ∈ l, f a = some (g a)) :
    optionList (l.map f) = some (l.map g) := by
  induction l with
  | nil => rfl
  | cons a as ih =>
    rw [List.map_cons, h a (List.mem_cons_self a as)]
    show (match optionList (as.map f) with
      | some l => some (g a :: l)
      | none => none) = some (g a :: as.map g)
    rw [ih (fun x hx => h x (List.mem_cons_of_mem a hx))]

theorem regionTotalLookupChecked_eq (rt : List (String × Nat)) (g : String) :
    regionTotalLookupChecked rt g = some (regionTotalLookup rt g) := by
  unfold regionTotalLookupChecked regionTotalLookup
  cases h : (rt.filter (fun e => e.1 == g)).map Prod.snd with
  | nil => rfl
  | cons v vs => simp

theorem hoverTextForChecked_eq (f : List Row) (regs : List String) (s : String) :
    hoverTextForChecked f regs s = some (hoverTextFor f regs s) := by
  unfold hoverTextForChecked hoverTextFor
  cases state_to_region.lookup s with
  | none => rfl
  | some g =>
    show (if regs.contains g then
        Option.map (fun n => mkRegionHover g n (deviceBreakdownFor f g))
          (regionTotalLookupChecked (region_totals f) g)
      else some (noDataHover s)) =
      some (if regs.contains g then
        mkRegionHover g (regionTotalLookup (region_totals f) g)
          (deviceBreakdownFor f g)
      else noDataHover s)
    rw [regionTotalLookupChecked_eq]
    by_cases hc : regs.contains g
    · rw [if_pos hc, if_pos hc]
      rfl
    · rw [if_neg hc, if_neg hc]

/-- C8: the aggregate operation is total — on every table and every pair
of selection sets (empty ones included) the checked run, in which the one
guarded partial dataframe access is explicit, succeeds and returns exactly
the aggregate result; no branch can raise. -/
theorem claim_C8 (t : List Row) (devs regs : List String) :
    aggregateChecked t devs regs = some (aggregate t devs regs) := by
  unfold aggregateChecked aggregate
  by_cases ht : t.isEmpty
  · rw [if_pos ht, if_pos ht]
  · rw [if_neg ht, if_neg ht]
    by_cases hf : (filteredRows t devs regs).length > 0
    · rw [if_pos hf, if_pos hf,
        optionList_map_eq
          (fun e _ => hoverTextForChecked_eq (filteredRows t devs regs) regs e.1)]
      rfl
    · rw [if_neg hf, if_neg hf]

/-- C5 (counterexample): on a working set whose rows are encountered with
device "Wind" before device "Solar", the hover breakdown lists "Solar"
first — name order, not the insertion (encounter) order of the filtered
rows asserted by the claim. -/
theorem claim_C5_counterexample :
    (deviceBreakdownFor (filteredRows
        [⟨"CA", some "Wind", some "West"⟩, ⟨"CA", some "Solar", some "West"⟩]
        ["Wind", "Solar"] ["West"]) "West").map Prod.fst = ["Solar", "Wind"] ∧
      encounterDevicesFor (filteredRows
        [⟨"CA", some "Wind", some "West"⟩, ⟨"CA", some "Solar", some "West"⟩]
        ["Wind", "Solar"] ["West"]) "West" = ["Wind", "Solar"] ∧
      (deviceBreakdownFor (filteredRows
        [⟨"CA", some "Wind", some "West"⟩, ⟨"CA", some "Solar", some "West"⟩]
        ["Wind", "Solar"] ["West"]) "West").map Prod.fst ≠
        encounterDevicesFor (filteredRows
          [⟨"CA", some "Wind", some "West"⟩, ⟨"CA", some "Solar", some "West"⟩]
          ["Wind", "Solar"] ["West"]) "West" :=
  ⟨by decide, by decide, by decide⟩

/-- C5 (amended): in the hover text built for each state, the per-device
breakdown of that state's region lists devices in ascending code-point
(lexicographic) order of device name — the order `groupby` sorts its keys
in — not in the insertion order of the filtered rows, and not by count. -/
theorem claim_C5_amended (f : List Row) (g : String) :
    List.Sorted strLe ((deviceBreakdownFor f g).map Prod.fst) := by
  unfold deviceBreakdownFor
  rw [List.map_map]
  have hL : List.Pairwise (fun a b : (String × String) × Nat => pairLe a.1 b.1)
      (region_device_counts f) := by
    unfold region_device_counts groupCountsPair
    refine List.pairwise_map.mpr ?_
    exact List.sorted_insertionSort pairLe _
  have hF : List.Pairwise (fun a b : (String × String) × Nat => pairLe a.1 b.1)
      ((region_device_counts f).filter (fun e => e.1.1 == g)) :=
    hL.sublist (List.filter_sublist _)
  have hmemg : ∀ a ∈ (region_device_counts f).filter (fun e => e.1.1 == g),
      a.1.1 = g := by
    intro a ha
    have := (List.mem_filter.mp ha).2
    exact eq_of_beq (by simpa using this)
  have hF2 : List.Pairwise
      (fun a b : (String × String) × Nat => strLe a.1.2 b.1.2)
      ((region_device_counts f).filter (fun e => e.1.1 == g)) := by
    refine hF.imp_of_mem ?_
    intro a b ha hb hab
    rcases hab with h | h
    · rw [hmemg a ha, hmemg b hb, strLtB_irrefl] at h
      cases h
    · exact h.2
  exact List.pairwise_map.mpr hF2
